import Mathlib

/-!
# Document hierarchy maintenance: storage and handlers

A shallow embedding of `internal/storage/storage.go` and of the write handlers of
`internal/handlers/handler.go`.

* The reindexer namespace is a finite map from primary key to record together with the
  counter behind the `id=serial()` precept.  It is passed explicitly through every method.
* A Go `error` is an `Option String` (`none` is `nil`), built with `errorf` the way
  `fmt.Errorf("%v: %v", op, err)` builds it.
* A runtime panic is the `panics` constructor of `Completion`.
* Backend failures are supplied from outside through `Faults`: one optional error text for
  every backend call of the write paths that has an error channel in the source.
* Go `int` is modelled by `Int`; the serial counter is not bounded.
-/

set_option autoImplicit false

namespace storage

/-- Modelled from the spec: the `Document` record. The struct declaration found in
`storage.go` has no `ParentId`, `Sort` and `ChildrenIds` fields although every method reads
or writes them, so the fields are the ones of section 3 of the specification: `id`, `title`,
`sort` (the field `SortKey` here, `Sort` being reserved), `parentId` (0 means root) and
`childrenIds`. A nil slice and an empty slice are both the empty list. -/
structure Document where
  Id : Int
  Title : String
  SortKey : Int
  ParentId : Int
  ChildrenIds : List Int
deriving DecidableEq

/-- The Go zero value `Document{}`. -/
def Document.zero : Document := ⟨0, "", 0, 0, []⟩

/-- The `documents` namespace: the record stored under each primary key, and the value of
the serial counter of the `id` field. -/
structure Store where
  records : Int → Option Document
  serial : Int

/-- A freshly created namespace. -/
def Store.empty : Store := ⟨fun _ => none, 0⟩

/-- How a call ends: it returns a value, or a runtime panic unwinds it. -/
inductive Completion (α : Type) where
  | returns (v : α)
  | panics
deriving DecidableEq

/-- Backend failures of one request. Each field is the error text reported by one backend
call (`none`: the call succeeds): the upsert of `CreateDocument`, the `children_ids` update
of the remove and of the add branch of `toggleChildrenIds`, the field update at the end of
`UpdateDocument`, and the delete query. `Query.Get` has no error result in the source and
therefore no fault. A failed call is taken to leave the namespace as it was. -/
structure Faults where
  upsert : Option String
  removeLink : Option String
  addLink : Option String
  setFields : Option String
  deleteQuery : Option String

/-- No backend failure. -/
def noFaults : Faults := ⟨none, none, none, none, none⟩

/-- The text of `fmt.Errorf("%v: %v", op, err)`. -/
def errorf (op err : String) : String := op ++ ": " ++ err

/-- Backend: `rx.Upsert(NamespaceName, &document, "id=serial()")`. The precept increments the
serial counter, writes it into the `id` field, stores the item under that key and copies the
stored item back into `document`. -/
def rxUpsertSerial (fault : Option String) (s : Store) (document : Document) :
    Store × Document × Option String :=
  match fault with
  | some e => (s, document, some e)
  | none =>
    let stored : Document := { document with Id := s.serial + 1 }
    (⟨fun k => if k = s.serial + 1 then some stored else s.records k, s.serial + 1⟩, stored, none)

/-- Backend: `rx.Query(NamespaceName).Where("id", EQ, id).Get()`. -/
def rxGet (s : Store) (id : Int) : Option Document := s.records id

/-- Backend: `rx.Query(NamespaceName).Where("id", EQ, id).Set(..)...Update()`: the record
with that key, if any, is replaced by `set` of it; the result is the updated item the
iterator yields (if any) and `iterator.Error()`. -/
def rxUpdate (fault : Option String) (s : Store) (id : Int) (set : Document → Document) :
    Store × Option Document × Option String :=
  match fault with
  | some e => (s, none, some e)
  | none =>
    match s.records id with
    | none => (s, none, none)
    | some d => (⟨fun k => if k = id then some (set d) else s.records k, s.serial⟩, some (set d), none)

/-- Backend: `rx.Query(NamespaceName).Where("id", EQ, id).Delete()`. -/
def rxDelete (fault : Option String) (s : Store) (id : Int) : Store × Option String :=
  match fault with
  | some e => (s, some e)
  | none => (⟨fun k => if k = id then none else s.records k, s.serial⟩, none)

/-- The allocation `make([]int, 0, cap)`: panics (`none`) when the capacity is negative. -/
def makeSlice (cap : Int) : Option (List Int) :=
  if cap < 0 then none else some []

/-- Method `Storage.GetDocument` (source lines 104-115). -/
def GetDocument (s : Store) (id : Int) : Document × Option String :=
  match rxGet s id with
  | none => (Document.zero, some (errorf "storage.GetDocument" "The document is missing"))
  | some document => (document, none)

/-- Method `Storage.getParentDocument` (source lines 156-168). A missing parent is an
error; `found` is false only for parent id 0. -/
def getParentDocument (s : Store) (parentId : Int) : Document × Bool × Option String :=
  if parentId = 0 then (Document.zero, false, none)
  else
    match GetDocument s parentId with
    | (_, some _) =>
      (Document.zero, false, some (errorf "storage.GetDocument" "The parent document is missing"))
    | (parentDocument, none) => (parentDocument, true, none)

/-- Method `Storage.toggleChildrenIds` (source lines 220-268). The method is the string the callers pass; the third case
of the switch is the string literal "default", so any other method falls through to
`return nil`. -/
def toggleChildrenIds (fault : Option String) (s : Store) (changedDocument : Document)
    (currentDocumentId : Int) (method : String) : Store × Completion (Option String) :=
  if method = "add" then
    let childrenIds := changedDocument.ChildrenIds ++ [currentDocumentId]
    match rxUpdate fault s changedDocument.Id (fun d => { d with ChildrenIds := childrenIds }) with
    | (s1, _, some e) => (s1, .returns (some (errorf "storage.UpdateDocument" e)))
    | (s1, _, none) => (s1, .returns none)
  else if method = "delete" then
    match makeSlice ((changedDocument.ChildrenIds.length : Int) - 1) with
    | none => (s, .panics)
    | some empty =>
      let childrenIds := changedDocument.ChildrenIds.foldl
        (fun acc v => if v = currentDocumentId then acc else acc ++ [v]) empty
      match rxUpdate fault s changedDocument.Id (fun d => { d with ChildrenIds := childrenIds }) with
      | (s1, _, some e) => (s1, .returns (some (errorf "storage.UpdateDocument" e)))
      | (s1, _, none) => (s1, .returns none)
  else if method = "default" then
    (s, .returns (some (errorf "storage.UpdateDocument" "Method is not allowed")))
  else (s, .returns none)

/-- Method `Storage.CreateDocument` (source lines 84-102). The upsert comes first; the record
stays stored when the parent lookup that follows fails. -/
def CreateDocument (f : Faults) (s : Store) (document : Document) :
    Store × Completion (Document × Option String) :=
  match rxUpsertSerial f.upsert s document with
  | (s1, _, some e) => (s1, .returns (Document.zero, some (errorf "storage.CreateDocument" e)))
  | (s1, document, none) =>
    match getParentDocument s1 document.ParentId with
    | (_, _, some e) => (s1, .returns (Document.zero, some (errorf "storage.CreateDocument" e)))
    | (parentDocument, found, none) =>
      if found then
        match toggleChildrenIds f.addLink s1 parentDocument document.Id "add" with
        | (s2, .panics) => (s2, .panics)
        | (s2, .returns (some e)) =>
          (s2, .returns (Document.zero, some (errorf "storage.UpdateDocument" e)))
        | (s2, .returns none) => (s2, .returns (document, none))
      else (s1, .returns (document, none))

/-- Method `Storage.DeleteDocument` (source lines 143-154). -/
def DeleteDocument (f : Faults) (s : Store) (documentId : Int) : Store × Option String :=
  match rxDelete f.deleteQuery s documentId with
  | (s1, some e) => (s1, some (errorf "storage.DeleteDocument" e))
  | (s1, none) => (s1, none)

/-- The tail of `Storage.UpdateDocument` (source lines 201-218): the field update and the
returned record. An iterator error returns `Document{}, nil`. -/
def updateFields (f : Faults) (s : Store) (document : Document) :
    Store × Completion (Document × Option String) :=
  match rxUpdate f.setFields s document.Id
      (fun d => { d with Title := document.Title, SortKey := document.SortKey,
                         ParentId := document.ParentId }) with
  | (s1, _, some _) => (s1, .returns (Document.zero, none))
  | (s1, some updated, none) => (s1, .returns (updated, none))
  | (s1, none, none) => (s1, .returns (Document.zero, none))

/-- The second guarded toggle of `Storage.UpdateDocument` (source lines 195-199) followed
by the tail. -/
def updateAddLink (f : Faults) (s : Store) (oldDocument parentDocument : Document)
    (foundParent : Bool) (document : Document) :
    Store × Completion (Document × Option String) :=
  if foundParent ∧ oldDocument.ParentId ≠ document.ParentId then
    match toggleChildrenIds f.addLink s parentDocument document.Id "add" with
    | (s1, .panics) => (s1, .panics)
    | (s1, .returns (some e)) =>
      (s1, .returns (Document.zero, some (errorf "storage.UpdateDocument" e)))
    | (s1, .returns none) => updateFields f s1 document
  else updateFields f s document

/-- Method `Storage.UpdateDocument` (source lines 170-218). Both parents are read before
any write. -/
def UpdateDocument (f : Faults) (s : Store) (document : Document) :
    Store × Completion (Document × Option String) :=
  match GetDocument s document.Id with
  | (_, some e) => (s, .returns (Document.zero, some (errorf "storage.UpdateDocument" e)))
  | (oldDocument, none) =>
    match getParentDocument s oldDocument.ParentId with
    | (_, _, some e) => (s, .returns (Document.zero, some (errorf "storage.UpdateDocument" e)))
    | (oldParentDocument, foundOldParent, none) =>
      match getParentDocument s document.ParentId with
      | (_, _, some e) => (s, .returns (Document.zero, some (errorf "storage.UpdateDocument" e)))
      | (parentDocument, foundParent, none) =>
        if foundOldParent ∧ oldDocument.ParentId ≠ document.ParentId then
          match toggleChildrenIds f.removeLink s oldParentDocument document.Id "delete" with
          | (s1, .panics) => (s1, .panics)
          | (s1, .returns (some e)) =>
            (s1, .returns (Document.zero, some (errorf "storage.UpdateDocument" e)))
          | (s1, .returns none) =>
            updateAddLink f s1 oldDocument parentDocument foundParent document
        else updateAddLink f s oldDocument parentDocument foundParent document

end storage

namespace handler

open storage

/-- The JSON body written by `responseWrapper`: a `ResponseWrapper` message or a document. -/
inductive Body where
  | message (text : String)
  | document (doc : Document)
deriving DecidableEq

/-- An HTTP response: status code and body. -/
structure Response where
  code : Nat
  body : Body
deriving DecidableEq

/-- Constant `http.StatusOK`. -/
def StatusOK : Nat := 200

/-- Constant `http.StatusNoContent`. -/
def StatusNoContent : Nat := 204

/-- Constant `http.StatusBadRequest`. -/
def StatusBadRequest : Nat := 400

/-- Function `validate` (handler.go lines 229-239): the error message, or the empty string
when the document is accepted. -/
def validate (doc : Document) : String :=
  if doc.Title = "" then "Invalid title"
  else if doc.Id ≠ 0 ∧ doc.ParentId ≠ 0 ∧ doc.ParentId = doc.Id then
    "A document cannot be a parent of itself"
  else ""

/-- Method `Handler.CreateDocument` (handler.go lines 128-161). The argument `decoded` is the result of `render.DecodeJSON`:
`none` when decoding fails, else the decoded request. -/
def CreateDocument (f : Faults) (s : Store) (decoded : Option Document) :
    Store × Completion Response :=
  match decoded with
  | none => (s, .returns ⟨StatusBadRequest, .message "Failed to decode request"⟩)
  | some decodedRequest =>
    let request : Document := { decodedRequest with ChildrenIds := [] }
    if validate request ≠ "" then
      (s, .returns ⟨StatusBadRequest, .message (validate request)⟩)
    else
      match storage.CreateDocument f s request with
      | (s1, .panics) => (s1, .panics)
      | (s1, .returns (_, some _)) =>
        (s1, .returns ⟨StatusBadRequest, .message "Error when creating a document"⟩)
      | (s1, .returns (document, none)) => (s1, .returns ⟨StatusOK, .document document⟩)

/-- Method `Handler.DeleteDocument` (handler.go lines 163-182). The argument `pathId` is the result of `strconv.Atoi` on the
`id` URL parameter: `none` when it is not a number. -/
def DeleteDocument (f : Faults) (s : Store) (pathId : Option Int) :
    Store × Completion Response :=
  match pathId with
  | none => (s, .returns ⟨StatusBadRequest, .message "Invalid Document ID value"⟩)
  | some documentId =>
    match storage.DeleteDocument f s documentId with
    | (s1, some _) =>
      (s1, .returns ⟨StatusBadRequest, .message "An error occurred when deleting the document"⟩)
    | (s1, none) => (s1, .returns ⟨StatusNoContent, .message ""⟩)

/-- Method `Handler.UpdateDocument` (handler.go lines 184-227). -/
def UpdateDocument (f : Faults) (s : Store) (pathId : Option Int) (decoded : Option Document) :
    Store × Completion Response :=
  match pathId with
  | none => (s, .returns ⟨StatusBadRequest, .message "Invalid Document ID value"⟩)
  | some documentId =>
    match decoded with
    | none => (s, .returns ⟨StatusBadRequest, .message "Failed to decode request"⟩)
    | some decodedRequest =>
      let request : Document := { decodedRequest with Id := documentId, ChildrenIds := [] }
      if validate request ≠ "" then
        (s, .returns ⟨StatusBadRequest, .message (validate request)⟩)
      else
        match storage.UpdateDocument f s request with
        | (s1, .panics) => (s1, .panics)
        | (s1, .returns (_, some _)) =>
          (s1, .returns ⟨StatusBadRequest, .message "Error when editing a document"⟩)
        | (s1, .returns (document, none)) => (s1, .returns ⟨StatusOK, .document document⟩)

end handler

namespace server

open storage

/-- A write request as the router of `main.go` dispatches it: `POST /documents`,
`PUT /documents/{id}` and `DELETE /documents/{id}`, with the path id already parsed and the
body already decoded (`none`: not a number, not decodable). The two read routes write
nothing to the namespace and are left out. -/
inductive Request where
  | create (decoded : Option Document)
  | update (pathId : Option Int) (decoded : Option Document)
  | delete (pathId : Option Int)

/-- One request served with no backend failure. A panic is recovered by the `Recoverer`
middleware, so the namespace stays as the panic left it. -/
def serve (s : Store) : Request → Store
  | .create decoded => (handler.CreateDocument noFaults s decoded).1
  | .update pathId decoded => (handler.UpdateDocument noFaults s pathId decoded).1
  | .delete pathId => (handler.DeleteDocument noFaults s pathId).1

/-- The namespace after a sequence of requests served one after the other, starting from
the empty namespace. -/
def run (reqs : List Request) : Store := reqs.foldl serve Store.empty

end server

namespace storage

/-- The consistency of a namespace that the request handlers maintain: every record is
stored under its own id, ids and child ids come from the serial counter, no child list
repeats an id, and a listed child that still exists names the listing record as its parent. -/
structure Consistent (s : Store) : Prop where
  serialNonneg : 0 ≤ s.serial
  key : ∀ k d, s.records k = some d → d.Id = k
  range : ∀ k d, s.records k = some d → 1 ≤ k ∧ k ≤ s.serial
  childRange : ∀ k d c, s.records k = some d → c ∈ d.ChildrenIds → c ≤ s.serial
  nodup : ∀ k d, s.records k = some d → d.ChildrenIds.Nodup
  link : ∀ k d c K, s.records k = some d → c ∈ d.ChildrenIds → s.records c = some K →
    K.ParentId = k

end storage

/-! ## Backend and helper lemmas -/

namespace storage

@[simp] theorem rxUpdate_records (s : Store) (id : Int) (set : Document → Document) (j : Int) :
    (rxUpdate none s id set).1.records j
      = if j = id then (s.records id).map set else s.records j := by
  unfold rxUpdate
  cases h : s.records id with
  | none => by_cases hj : j = id <;> simp [hj, h]
  | some d => simp

@[simp] theorem rxUpdate_serial (s : Store) (id : Int) (set : Document → Document) :
    (rxUpdate none s id set).1.serial = s.serial := by
  unfold rxUpdate
  cases h : s.records id <;> simp [h]

@[simp] theorem rxUpdate_error (s : Store) (id : Int) (set : Document → Document) :
    (rxUpdate none s id set).2.2 = none := by
  unfold rxUpdate
  cases h : s.records id <;> simp [h]

theorem rxUpdate_item (s : Store) (id : Int) (set : Document → Document) :
    (rxUpdate none s id set).2.1 = (s.records id).map set := by
  unfold rxUpdate
  cases h : s.records id <;> simp [h]

theorem removeLoop_eq (cur : Int) (l acc : List Int) :
    l.foldl (fun acc v => if v = cur then acc else acc ++ [v]) acc
      = acc ++ l.filter (fun v => decide (v ≠ cur)) := by
  induction l generalizing acc with
  | nil => simp
  | cons v l ih =>
    by_cases hv : v = cur
    · simp [List.foldl_cons, ih, hv]
    · simp [List.foldl_cons, ih, hv]

theorem makeSlice_length (l : List Int) :
    makeSlice ((l.length : Int) - 1) = if l = [] then none else some [] := by
  unfold makeSlice
  cases l with
  | nil => simp
  | cons a t =>
    have : ¬ ((((a :: t).length : Nat) : Int) - 1 < 0) := by
      simp only [List.length_cons]; push_cast; omega
    simp [this]

theorem toggle_add (s : Store) (p : Document) (c : Int) :
    toggleChildrenIds none s p c "add"
      = ((rxUpdate none s p.Id (fun d => { d with ChildrenIds := p.ChildrenIds ++ [c] })).1,
          .returns none) := by
  unfold toggleChildrenIds rxUpdate
  cases h : s.records p.Id <;> simp

theorem toggle_delete (s : Store) (p : Document) (c : Int) (hne : p.ChildrenIds ≠ []) :
    toggleChildrenIds none s p c "delete"
      = ((rxUpdate none s p.Id
            (fun d => { d with ChildrenIds := p.ChildrenIds.filter (fun v => decide (v ≠ c)) })).1,
          .returns none) := by
  unfold toggleChildrenIds
  rw [makeSlice_length]
  unfold rxUpdate
  cases h : s.records p.Id <;> simp [hne, removeLoop_eq]

theorem toggle_delete_empty (fault : Option String) (s : Store) (p : Document) (c : Int)
    (he : p.ChildrenIds = []) :
    toggleChildrenIds fault s p c "delete" = (s, .panics) := by
  unfold toggleChildrenIds
  rw [makeSlice_length]
  simp [he]

theorem GetDocument_some (s : Store) (id : Int) (d : Document) (h : s.records id = some d) :
    GetDocument s id = (d, none) := by
  simp [GetDocument, rxGet, h]

theorem GetDocument_none (s : Store) (id : Int) (h : s.records id = none) :
    GetDocument s id
      = (Document.zero, some (errorf "storage.GetDocument" "The document is missing")) := by
  simp [GetDocument, rxGet, h]

theorem getParentDocument_zero (s : Store) :
    getParentDocument s 0 = (Document.zero, false, none) := by
  simp [getParentDocument]

theorem getParentDocument_some (s : Store) (p : Int) (d : Document) (hp : p ≠ 0)
    (h : s.records p = some d) : getParentDocument s p = (d, true, none) := by
  simp [getParentDocument, hp, GetDocument_some s p d h]

theorem getParentDocument_none (s : Store) (p : Int) (hp : p ≠ 0) (h : s.records p = none) :
    getParentDocument s p
      = (Document.zero, false,
          some (errorf "storage.GetDocument" "The parent document is missing")) := by
  simp [getParentDocument, hp, GetDocument_none s p h]

@[simp] theorem rxUpsertSerial_records (s : Store) (doc : Document) (j : Int) :
    (rxUpsertSerial none s doc).1.records j
      = if j = s.serial + 1 then some { doc with Id := s.serial + 1 } else s.records j := rfl

@[simp] theorem rxUpsertSerial_serial (s : Store) (doc : Document) :
    (rxUpsertSerial none s doc).1.serial = s.serial + 1 := rfl

theorem CreateDocument_root (s : Store) (doc : Document) (hp : doc.ParentId = 0) :
    CreateDocument noFaults s doc
      = ((rxUpsertSerial none s doc).1, .returns ({ doc with Id := s.serial + 1 }, none)) := by
  simp [CreateDocument, noFaults, rxUpsertSerial, getParentDocument, hp]

theorem CreateDocument_missing (s : Store) (doc : Document) (hp : doc.ParentId ≠ 0)
    (hn : (rxUpsertSerial none s doc).1.records doc.ParentId = none) :
    CreateDocument noFaults s doc
      = ((rxUpsertSerial none s doc).1,
          .returns (Document.zero, some (errorf "storage.CreateDocument"
            (errorf "storage.GetDocument" "The parent document is missing")))) := by
  have h := getParentDocument_none _ _ hp hn
  simp only [CreateDocument, noFaults]
  simp only [rxUpsertSerial] at h ⊢
  simp only [h]

theorem CreateDocument_linked (s : Store) (doc parent : Document) (hp : doc.ParentId ≠ 0)
    (hs : (rxUpsertSerial none s doc).1.records doc.ParentId = some parent) :
    CreateDocument noFaults s doc
      = ((rxUpdate none (rxUpsertSerial none s doc).1 parent.Id
            (fun d => { d with ChildrenIds := parent.ChildrenIds ++ [s.serial + 1] })).1,
          .returns ({ doc with Id := s.serial + 1 }, none)) := by
  have h := getParentDocument_some _ _ _ hp hs
  have ht := toggle_add (rxUpsertSerial none s doc).1 parent (s.serial + 1)
  simp only [CreateDocument, noFaults]
  simp only [rxUpsertSerial] at h ht ⊢
  simp only [h, ht, if_true]

theorem Consistent_empty : Consistent Store.empty := by
  refine ⟨by simp [Store.empty], ?_, ?_, ?_, ?_, ?_⟩ <;> intro k d <;> simp [Store.empty]

theorem Consistent_upsert (s : Store) (hs : Consistent s) (doc : Document)
    (hc : doc.ChildrenIds = []) :
    Consistent (rxUpsertSerial none s doc).1 ∧
      ∀ k d, (rxUpsertSerial none s doc).1.records k = some d → s.serial + 1 ∉ d.ChildrenIds := by
  have hrec : ∀ k d, (rxUpsertSerial none s doc).1.records k = some d →
      (k = s.serial + 1 ∧ d = { doc with Id := s.serial + 1 }) ∨
      (k ≠ s.serial + 1 ∧ s.records k = some d) := by
    intro k d h
    rw [rxUpsertSerial_records] at h
    by_cases hk : k = s.serial + 1
    · left; simp [hk] at h; exact ⟨hk, h.symm⟩
    · right; simp [hk] at h; exact ⟨hk, h⟩
  have h0 := hs.serialNonneg
  refine ⟨⟨?_, ?_, ?_, ?_, ?_, ?_⟩, ?_⟩
  · rw [rxUpsertSerial_serial]; omega
  · intro k d h
    rcases hrec k d h with ⟨hk, hd⟩ | ⟨_, hd⟩
    · simp [hd, hk]
    · exact hs.key k d hd
  · intro k d h
    rw [rxUpsertSerial_serial]
    rcases hrec k d h with ⟨hk, _⟩ | ⟨_, hd⟩
    · omega
    · have := hs.range k d hd; omega
  · intro k d c h hcm
    rw [rxUpsertSerial_serial]
    rcases hrec k d h with ⟨_, hd⟩ | ⟨_, hd⟩
    · simp [hd, hc] at hcm
    · have := hs.childRange k d c hd hcm; omega
  · intro k d h
    rcases hrec k d h with ⟨_, hd⟩ | ⟨_, hd⟩
    · simp [hd, hc]
    · exact hs.nodup k d hd
  · intro k d c K h hcm hK
    rcases hrec k d h with ⟨_, hd⟩ | ⟨_, hd⟩
    · simp [hd, hc] at hcm
    · rcases hrec c K hK with ⟨hk2, _⟩ | ⟨_, hK2⟩
      · have := hs.childRange k d c hd hcm; omega
      · exact hs.link k d c K hd hcm hK2
  · intro k d h hm
    rcases hrec k d h with ⟨_, hd⟩ | ⟨_, hd⟩
    · simp [hd, hc] at hm
    · have := hs.childRange k d _ hd hm; omega

theorem Consistent_setChildren (s : Store) (hs : Consistent s) (p : Int) (cs : List Int)
    (hnd : cs.Nodup) (hr : ∀ c ∈ cs, c ≤ s.serial)
    (hl : ∀ c ∈ cs, ∀ K, s.records c = some K → K.ParentId = p) :
    Consistent (rxUpdate none s p (fun d => { d with ChildrenIds := cs })).1 := by
  have hrec : ∀ k d, (rxUpdate none s p (fun d => { d with ChildrenIds := cs })).1.records k
      = some d →
      ∃ d0, s.records k = some d0 ∧ d.Id = d0.Id ∧ d.ParentId = d0.ParentId ∧
        ((k = p ∧ d.ChildrenIds = cs) ∨ (k ≠ p ∧ d.ChildrenIds = d0.ChildrenIds)) := by
    intro k d h
    rw [rxUpdate_records] at h
    by_cases hk : k = p
    · subst hk
      cases h0 : s.records k with
      | none => simp [h0] at h
      | some d0 =>
        simp [h0] at h
        exact ⟨d0, rfl, by simp [← h], by simp [← h], Or.inl ⟨rfl, by simp [← h]⟩⟩
    · simp [hk] at h
      exact ⟨d, h, rfl, rfl, Or.inr ⟨hk, rfl⟩⟩
  refine ⟨?_, ?_, ?_, ?_, ?_, ?_⟩
  · rw [rxUpdate_serial]; exact hs.serialNonneg
  · intro k d h
    obtain ⟨d0, h0, hid, _, _⟩ := hrec k d h
    rw [hid]; exact hs.key k d0 h0
  · intro k d h
    obtain ⟨d0, h0, _, _, _⟩ := hrec k d h
    rw [rxUpdate_serial]; exact hs.range k d0 h0
  · intro k d c h hc
    obtain ⟨d0, h0, _, _, hch⟩ := hrec k d h
    rw [rxUpdate_serial]
    rcases hch with ⟨_, hch⟩ | ⟨_, hch⟩
    · rw [hch] at hc; exact hr c hc
    · rw [hch] at hc; exact hs.childRange k d0 c h0 hc
  · intro k d h
    obtain ⟨d0, h0, _, _, hch⟩ := hrec k d h
    rcases hch with ⟨_, hch⟩ | ⟨_, hch⟩
    · rw [hch]; exact hnd
    · rw [hch]; exact hs.nodup k d0 h0
  · intro k d c K h hc hK
    obtain ⟨d0, h0, _, _, hch⟩ := hrec k d h
    obtain ⟨K0, hK0, _, hpar, _⟩ := hrec c K hK
    rw [hpar]
    rcases hch with ⟨hk, hch⟩ | ⟨_, hch⟩
    · rw [hch] at hc; rw [hk]; exact hl c hc K0 hK0
    · rw [hch] at hc; exact hs.link k d0 c K0 h0 hc hK0

theorem Consistent_delete (s : Store) (hs : Consistent s) (id : Int) :
    Consistent (DeleteDocument noFaults s id).1 := by
  have hrec : ∀ k d, (DeleteDocument noFaults s id).1.records k = some d →
      s.records k = some d := by
    intro k d h
    simp only [DeleteDocument, noFaults, rxDelete] at h
    by_cases hk : k = id
    · simp [hk] at h
    · simpa [hk] using h
  have hser : (DeleteDocument noFaults s id).1.serial = s.serial := rfl
  refine ⟨?_, ?_, ?_, ?_, ?_, ?_⟩
  · rw [hser]; exact hs.serialNonneg
  · intro k d h; exact hs.key k d (hrec k d h)
  · intro k d h; rw [hser]; exact hs.range k d (hrec k d h)
  · intro k d c h hc; rw [hser]; exact hs.childRange k d c (hrec k d h) hc
  · intro k d h; exact hs.nodup k d (hrec k d h)
  · intro k d c K h hc hK; exact hs.link k d c K (hrec k d h) hc (hrec c K hK)

theorem Consistent_create (s : Store) (hs : Consistent s) (doc : Document)
    (hc : doc.ChildrenIds = []) :
    Consistent (CreateDocument noFaults s doc).1 := by
  obtain ⟨h1, hfresh⟩ := Consistent_upsert s hs doc hc
  by_cases hp : doc.ParentId = 0
  · rw [CreateDocument_root s doc hp]; exact h1
  · cases hpar : (rxUpsertSerial none s doc).1.records doc.ParentId with
    | none => rw [CreateDocument_missing s doc hp hpar]; exact h1
    | some parent =>
      rw [CreateDocument_linked s doc parent hp hpar]
      have hkey : parent.Id = doc.ParentId := h1.key _ _ hpar
      rw [hkey]
      apply Consistent_setChildren _ h1
      · rw [List.nodup_append]
        refine ⟨h1.nodup _ _ hpar, by simp, ?_⟩
        intro a ha hb
        simp at hb
        subst hb
        exact hfresh _ _ hpar ha
      · intro c hcm
        rw [rxUpsertSerial_serial]
        rw [List.mem_append] at hcm
        rcases hcm with hcm | hcm
        · have := h1.childRange _ _ c hpar hcm
          rw [rxUpsertSerial_serial] at this; exact this
        · simp at hcm; omega
      · intro c hcm K hK
        rw [List.mem_append] at hcm
        rcases hcm with hcm | hcm
        · exact h1.link _ _ c K hpar hcm hK
        · simp at hcm
          subst hcm
          simp at hK
          rw [← hK]

theorem getParentDocument_found (s : Store) (p : Int) (d : Document) (e : Option String)
    (h : getParentDocument s p = (d, true, e)) : p ≠ 0 ∧ s.records p = some d := by
  unfold getParentDocument GetDocument rxGet at h
  by_cases hp : p = 0
  · simp [hp] at h
  · cases hr : s.records p with
    | none => simp [hp, hr] at h
    | some d0 =>
      simp [hp, hr] at h
      exact ⟨hp, by rw [h.1]⟩

theorem getParentDocument_not_found (s : Store) (p : Int) (d : Document)
    (h : getParentDocument s p = (d, false, none)) : p = 0 := by
  unfold getParentDocument GetDocument rxGet at h
  by_cases hp : p = 0
  · exact hp
  · cases hr : s.records p with
    | none => simp [hp, hr] at h
    | some d0 => simp [hp, hr] at h

theorem updateFields_store (s : Store) (doc : Document) :
    (updateFields noFaults s doc).1
      = (rxUpdate none s doc.Id (fun d => { d with Title := doc.Title, SortKey := doc.SortKey,
                                                    ParentId := doc.ParentId })).1 := by
  unfold updateFields rxUpdate
  cases h : s.records doc.Id <;> simp [noFaults, h]

theorem UpdateDocument_missing (s : Store) (doc : Document) (h : s.records doc.Id = none) :
    UpdateDocument noFaults s doc
      = (s, .returns (Document.zero, some (errorf "storage.UpdateDocument"
          (errorf "storage.GetDocument" "The document is missing")))) := by
  simp [UpdateDocument, GetDocument_none s _ h]

theorem UpdateDocument_oldParent_error (s : Store) (doc old d : Document) (b : Bool) (e : String)
    (h : s.records doc.Id = some old)
    (ha : getParentDocument s old.ParentId = (d, b, some e)) :
    UpdateDocument noFaults s doc
      = (s, .returns (Document.zero, some (errorf "storage.UpdateDocument" e))) := by
  simp [UpdateDocument, GetDocument_some s _ _ h, ha]

theorem UpdateDocument_newParent_error (s : Store) (doc old A d : Document) (fa b : Bool)
    (e : String) (h : s.records doc.Id = some old)
    (ha : getParentDocument s old.ParentId = (A, fa, none))
    (hc : getParentDocument s doc.ParentId = (d, b, some e)) :
    UpdateDocument noFaults s doc
      = (s, .returns (Document.zero, some (errorf "storage.UpdateDocument" e))) := by
  simp [UpdateDocument, GetDocument_some s _ _ h, ha, hc]

theorem UpdateDocument_panics (s : Store) (doc old A C : Document) (fc : Bool)
    (h : s.records doc.Id = some old)
    (ha : getParentDocument s old.ParentId = (A, true, none))
    (hc : getParentDocument s doc.ParentId = (C, fc, none))
    (hne : old.ParentId ≠ doc.ParentId) (hA : A.ChildrenIds = []) :
    UpdateDocument noFaults s doc = (s, .panics) := by
  simp [UpdateDocument, GetDocument_some s _ _ h, ha, hc, hne, noFaults,
    toggle_delete_empty none s A doc.Id hA]

theorem UpdateDocument_applies (s : Store) (doc old A C : Document) (fa fc : Bool)
    (h : s.records doc.Id = some old)
    (ha : getParentDocument s old.ParentId = (A, fa, none))
    (hc : getParentDocument s doc.ParentId = (C, fc, none))
    (hne : ¬ (fa = true ∧ old.ParentId ≠ doc.ParentId ∧ A.ChildrenIds = [])) :
    UpdateDocument noFaults s doc
      = updateFields noFaults
          (if fc = true ∧ old.ParentId ≠ doc.ParentId then
            (rxUpdate none
              (if fa = true ∧ old.ParentId ≠ doc.ParentId then
                (rxUpdate none s A.Id (fun d =>
                  { d with ChildrenIds := A.ChildrenIds.filter (fun v => decide (v ≠ doc.Id)) })).1
              else s)
              C.Id (fun d => { d with ChildrenIds := C.ChildrenIds ++ [doc.Id] })).1
          else
            (if fa = true ∧ old.ParentId ≠ doc.ParentId then
              (rxUpdate none s A.Id (fun d =>
                { d with ChildrenIds := A.ChildrenIds.filter (fun v => decide (v ≠ doc.Id)) })).1
            else s))
          doc := by
  simp only [UpdateDocument, GetDocument_some s _ _ h, ha, hc]
  by_cases hpc : old.ParentId = doc.ParentId
  · simp [hpc, updateAddLink]
  · cases fa <;> cases fc
    · simp [hpc, updateAddLink]
    · simp [hpc, noFaults, updateAddLink, toggle_add]
    · have hA : A.ChildrenIds ≠ [] := fun hA => hne ⟨rfl, hpc, hA⟩
      simp [hpc, noFaults, updateAddLink, toggle_delete s A doc.Id hA]
    · have hA : A.ChildrenIds ≠ [] := fun hA => hne ⟨rfl, hpc, hA⟩
      simp [hpc, noFaults, updateAddLink, toggle_delete s A doc.Id hA, toggle_add]

theorem rxUpdate_records_some (s : Store) (id : Int) (set : Document → Document) (j : Int)
    (d1 : Document) (h : (rxUpdate none s id set).1.records j = some d1) :
    ∃ d, s.records j = some d ∧ d1 = if j = id then set d else d := by
  rw [rxUpdate_records] at h
  by_cases hj : j = id
  · subst hj
    cases h0 : s.records j with
    | none => simp [h0] at h
    | some d => simp [h0] at h; exact ⟨d, rfl, by simp [h]⟩
  · simp [hj] at h
    exact ⟨d1, h, by simp [hj]⟩

theorem guarded_rxUpdate_records_some (P : Prop) [Decidable P] (s : Store) (id : Int)
    (set : Document → Document) (j : Int) (d1 : Document)
    (h : (if P then (rxUpdate none s id set).1 else s).records j = some d1) :
    ∃ d, s.records j = some d ∧ d1 = if P ∧ j = id then set d else d := by
  by_cases hP : P
  · simp only [hP, if_true] at h
    obtain ⟨d, hd, he⟩ := rxUpdate_records_some s id set j d1 h
    exact ⟨d, hd, by simp [hP, he]⟩
  · simp only [hP, if_false] at h
    exact ⟨d1, h, by simp [hP]⟩

/-- Transfer of consistency along a re-parenting of record `k` to `c`: ids are kept, only
`k` changes its parent, child lists stay duplicate free, and `k` is listed by `c` alone. -/
theorem Consistent_transfer (s t : Store) (k c : Int) (hs : Consistent s)
    (hser : t.serial = s.serial) (hk : ∃ old, s.records k = some old)
    (hrec : ∀ j d1, t.records j = some d1 → ∃ d, s.records j = some d ∧ d1.Id = d.Id ∧
      d1.ParentId = (if j = k then c else d.ParentId) ∧ d1.ChildrenIds.Nodup ∧
      ∀ x ∈ d1.ChildrenIds, (x ≠ k ∧ x ∈ d.ChildrenIds) ∨ (x = k ∧ j = c)) :
    Consistent t := by
  obtain ⟨old, hold⟩ := hk
  refine ⟨?_, ?_, ?_, ?_, ?_, ?_⟩
  · rw [hser]; exact hs.serialNonneg
  · intro j d1 h
    obtain ⟨d, hd, hid, _, _, _⟩ := hrec j d1 h
    rw [hid]; exact hs.key j d hd
  · intro j d1 h
    obtain ⟨d, hd, _, _, _, _⟩ := hrec j d1 h
    rw [hser]; exact hs.range j d hd
  · intro j d1 x h hx
    obtain ⟨d, hd, _, _, _, hch⟩ := hrec j d1 h
    rw [hser]
    rcases hch x hx with ⟨_, hx0⟩ | ⟨hxk, _⟩
    · exact hs.childRange j d x hd hx0
    · rw [hxk]; exact (hs.range k old hold).2
  · intro j d1 h
    obtain ⟨d, _, _, _, hnd, _⟩ := hrec j d1 h
    exact hnd
  · intro j d1 x K1 h hx hK1
    obtain ⟨d, hd, _, _, _, hch⟩ := hrec j d1 h
    obtain ⟨K, hK, _, hpar, _, _⟩ := hrec x K1 hK1
    rw [hpar]
    rcases hch x hx with ⟨hxk, hx0⟩ | ⟨hxk, hjc⟩
    · simp only [hxk, if_false]
      exact hs.link j d x K hd hx0 hK
    · simp [hxk, hjc]

theorem Consistent_update (s : Store) (hs : Consistent s) (doc : Document) :
    Consistent (UpdateDocument noFaults s doc).1 := by
  cases hold : s.records doc.Id with
  | none => rw [UpdateDocument_missing s doc hold]; exact hs
  | some old =>
    rcases ha : getParentDocument s old.ParentId with ⟨A, fa, ea⟩
    cases ea with
    | some e => rw [UpdateDocument_oldParent_error s doc old A fa e hold ha]; exact hs
    | none =>
      rcases hc : getParentDocument s doc.ParentId with ⟨C, fc, ec⟩
      cases ec with
      | some e => rw [UpdateDocument_newParent_error s doc old A C fa fc e hold ha hc]; exact hs
      | none =>
        by_cases hpanic : fa = true ∧ old.ParentId ≠ doc.ParentId ∧ A.ChildrenIds = []
        · obtain ⟨hfa, hne, hA⟩ := hpanic
          subst hfa
          rw [UpdateDocument_panics s doc old A C fc hold ha hc hne hA]; exact hs
        · rw [UpdateDocument_applies s doc old A C fa fc hold ha hc hpanic, updateFields_store]
          have hAfacts : fa = true → old.ParentId ≠ 0 ∧ s.records old.ParentId = some A ∧
              A.Id = old.ParentId := by
            intro hfa; subst hfa
            obtain ⟨h1, h2⟩ := getParentDocument_found s _ A none ha
            exact ⟨h1, h2, hs.key _ _ h2⟩
          have hAnot : fa = false → old.ParentId = 0 := by
            intro hfa; subst hfa
            exact getParentDocument_not_found s _ A ha
          have hCfacts : fc = true → s.records doc.ParentId = some C ∧ C.Id = doc.ParentId := by
            intro hfc; subst hfc
            obtain ⟨_, h2⟩ := getParentDocument_found s _ C none hc
            exact ⟨h2, hs.key _ _ h2⟩
          apply Consistent_transfer s _ doc.Id doc.ParentId hs
          · rw [rxUpdate_serial]
            split_ifs <;> simp
          · exact ⟨old, hold⟩
          · intro j d3 h3
            obtain ⟨d2, h2, e3⟩ := rxUpdate_records_some _ _ _ _ _ h3
            obtain ⟨d1, h1, e2⟩ := guarded_rxUpdate_records_some _ _ _ _ _ _ h2
            obtain ⟨d, h0, e1⟩ := guarded_rxUpdate_records_some _ _ _ _ _ _ h1
            have hch : d3.ChildrenIds
                = if (fc = true ∧ old.ParentId ≠ doc.ParentId) ∧ j = C.Id then
                    C.ChildrenIds ++ [doc.Id]
                  else if (fa = true ∧ old.ParentId ≠ doc.ParentId) ∧ j = A.Id then
                    A.ChildrenIds.filter (fun v => decide (v ≠ doc.Id))
                  else d.ChildrenIds := by
              rw [e3, e2, e1]; split_ifs <;> rfl
            have hcases :
                (fc = true ∧ old.ParentId ≠ doc.ParentId ∧ j = doc.ParentId ∧ d = C ∧
                  d3.ChildrenIds = C.ChildrenIds ++ [doc.Id] ∧ doc.Id ∉ C.ChildrenIds) ∨
                (d3.ChildrenIds = d.ChildrenIds.filter (fun v => decide (v ≠ doc.Id))) ∨
                (d3.ChildrenIds = d.ChildrenIds ∧
                  (doc.Id ∈ d.ChildrenIds → j = doc.ParentId)) := by
              by_cases hadd : (fc = true ∧ old.ParentId ≠ doc.ParentId) ∧ j = C.Id
              · obtain ⟨⟨hfc, hne⟩, hj⟩ := hadd
                obtain ⟨hC, hCid⟩ := hCfacts hfc
                have hjc : j = doc.ParentId := by rw [hj, hCid]
                have hdC : d = C := by
                  rw [hjc, hC] at h0; exact (Option.some.inj h0).symm
                have hnot : doc.Id ∉ C.ChildrenIds := by
                  intro hin
                  exact hne (hs.link _ C doc.Id old hC hin hold)
                left
                refine ⟨hfc, hne, hjc, hdC, ?_, hnot⟩
                rw [hch]; simp [hfc, hne, hj]
              · by_cases hrem : (fa = true ∧ old.ParentId ≠ doc.ParentId) ∧ j = A.Id
                · obtain ⟨⟨hfa, hne⟩, hj⟩ := hrem
                  obtain ⟨_, hA, hAid⟩ := hAfacts hfa
                  have hdA : d = A := by
                    rw [hj, hAid, hA] at h0; exact (Option.some.inj h0).symm
                  right; left
                  rw [hch, if_neg hadd, if_pos ⟨⟨hfa, hne⟩, hj⟩, hdA]
                · right; right
                  refine ⟨by rw [hch, if_neg hadd, if_neg hrem], ?_⟩
                  intro hin
                  have hpar : old.ParentId = j := hs.link j d doc.Id old h0 hin hold
                  by_cases hne : old.ParentId = doc.ParentId
                  · rw [← hpar, hne]
                  · exfalso
                    cases hfa : fa with
                    | false =>
                      have h00 := hAnot hfa
                      have := (hs.range j d h0).1
                      omega
                    | true =>
                      obtain ⟨_, _, hAid⟩ := hAfacts hfa
                      exact hrem ⟨⟨hfa, hne⟩, by rw [hAid, hpar]⟩
            have hnd := hs.nodup j d h0
            refine ⟨d, h0, ?_, ?_, ?_, ?_⟩
            · rw [e3, e2, e1]; split_ifs <;> rfl
            · rw [e3, e2, e1]; split_ifs <;> rfl
            · rcases hcases with ⟨_, _, _, hdC, hc3, hnot⟩ | hc3 | ⟨hc3, _⟩
              · rw [hc3, List.nodup_append]
                refine ⟨hdC ▸ hnd, by simp, ?_⟩
                intro a ha hb
                simp at hb
                subst hb
                exact hnot ha
              · rw [hc3]; exact hnd.filter _
              · rw [hc3]; exact hnd
            · intro x hx
              rcases hcases with ⟨_, _, hjc, hdC, hc3, hnot⟩ | hc3 | ⟨hc3, hself⟩
              · rw [hc3, List.mem_append] at hx
                rcases hx with hx | hx
                · left
                  refine ⟨?_, hdC ▸ hx⟩
                  intro hxk; exact hnot (hxk ▸ hx)
                · right; simp at hx; exact ⟨hx, hjc⟩
              · rw [hc3, List.mem_filter] at hx
                left; exact ⟨by simpa using hx.2, hx.1⟩
              · rw [hc3] at hx
                by_cases hxk : x = doc.Id
                · right; exact ⟨hxk, hself (hxk ▸ hx)⟩
                · left; exact ⟨hxk, hx⟩

end storage

/-! ## Re-parenting when the remove branch can allocate -/

namespace storage

theorem rxUpdate_records_map (s : Store) (id : Int) (set : Document → Document) (j : Int) :
    (rxUpdate none s id set).1.records j
      = (s.records j).map (fun d => if j = id then set d else d) := by
  rw [rxUpdate_records]
  by_cases hj : j = id
  · subst hj; simp
  · simp [hj]

/-- In a consistent namespace, with stored documents `A`, `B`, `C`, `A.Id ≠ C.Id`, the stored
parent of `B` being `A`, and the child list of `A` not empty: `UpdateDocument` of `B` with
parent `C` leaves `A` without `B` in its child list, `C` with it, and `B` with parent `C`. -/
theorem UpdateDocument_reparent (s : Store) (hs : Consistent s) (A B C doc : Document)
    (hA : s.records A.Id = some A) (hB : s.records B.Id = some B)
    (hC : s.records C.Id = some C) (hAC : A.Id ≠ C.Id) (hpar : B.ParentId = A.Id)
    (hid : doc.Id = B.Id) (hnew : doc.ParentId = C.Id) (hne : A.ChildrenIds ≠ []) :
    ∃ A1 C1 B1,
      (UpdateDocument noFaults s doc).1.records A.Id = some A1 ∧
      B.Id ∉ A1.ChildrenIds ∧
      (UpdateDocument noFaults s doc).1.records C.Id = some C1 ∧
      B.Id ∈ C1.ChildrenIds ∧
      (UpdateDocument noFaults s doc).1.records B.Id = some B1 ∧
      B1.ParentId = C.Id := by
  have hA0 : B.ParentId ≠ 0 := by have := hs.range _ _ hA; omega
  have hC0 : doc.ParentId ≠ 0 := by have := hs.range _ _ hC; omega
  have ha : getParentDocument s B.ParentId = (A, true, none) :=
    getParentDocument_some s _ A hA0 (by rw [hpar]; exact hA)
  have hc : getParentDocument s doc.ParentId = (C, true, none) :=
    getParentDocument_some s _ C hC0 (by rw [hnew]; exact hC)
  have hold : s.records doc.Id = some B := by rw [hid]; exact hB
  have hne2 : B.ParentId ≠ doc.ParentId := by rw [hpar, hnew]; exact hAC
  rw [UpdateDocument_applies s doc B A C true true hold ha hc (fun h => hne h.2.2),
    updateFields_store]
  have hcond : (true = true ∧ B.ParentId ≠ doc.ParentId) := ⟨rfl, hne2⟩
  rw [if_pos hcond, if_pos hcond]
  simp only [rxUpdate_records_map, Option.map_map, hid, hnew]
  have hCA : C.Id ≠ A.Id := fun h => hAC h.symm
  refine ⟨_, _, _, by rw [hA]; rfl, ?_, by rw [hC]; rfl, ?_, by rw [hB]; rfl, ?_⟩
  · simp only [Function.comp]
    split_ifs <;> simp_all [List.mem_filter]
  · simp only [Function.comp]
    split_ifs <;> simp_all
  · simp only [Function.comp]
    split_ifs <;> simp_all

end storage

/-! ## The handlers keep the namespace consistent -/

namespace server

open storage

theorem handler_create_store (f : Faults) (s : Store) (request : Document) :
    (handler.CreateDocument f s (some request)).1
      = if handler.validate { request with ChildrenIds := [] } ≠ "" then s
        else (storage.CreateDocument f s { request with ChildrenIds := [] }).1 := by
  simp only [handler.CreateDocument]
  split_ifs with hv
  · rfl
  · rcases storage.CreateDocument f s { request with ChildrenIds := [] } with ⟨s1, out⟩
    rcases out with ⟨d, e⟩ | _
    · cases e <;> rfl
    · rfl

theorem handler_update_store (f : Faults) (s : Store) (id : Int) (request : Document) :
    (handler.UpdateDocument f s (some id) (some request)).1
      = if handler.validate { request with Id := id, ChildrenIds := [] } ≠ "" then s
        else (storage.UpdateDocument f s { request with Id := id, ChildrenIds := [] }).1 := by
  simp only [handler.UpdateDocument]
  split_ifs with hv
  · rfl
  · rcases storage.UpdateDocument f s { request with Id := id, ChildrenIds := [] } with ⟨s1, out⟩
    rcases out with ⟨d, e⟩ | _
    · cases e <;> rfl
    · rfl

theorem handler_delete_store (f : Faults) (s : Store) (id : Int) :
    (handler.DeleteDocument f s (some id)).1 = (storage.DeleteDocument f s id).1 := by
  simp only [handler.DeleteDocument]
  rcases storage.DeleteDocument f s id with ⟨s1, e⟩
  cases e <;> rfl

theorem Consistent_serve (s : Store) (hs : Consistent s) (r : Request) :
    Consistent (serve s r) := by
  cases r with
  | create decoded =>
    cases decoded with
    | none => exact hs
    | some request =>
      simp only [serve]
      rw [handler_create_store]
      split_ifs
      · exact hs
      · exact Consistent_create s hs _ rfl
  | update pathId decoded =>
    cases pathId with
    | none => exact hs
    | some id =>
      cases decoded with
      | none => exact hs
      | some request =>
        simp only [serve]
        rw [handler_update_store]
        split_ifs
        · exact hs
        · exact Consistent_update s hs _
  | delete pathId =>
    cases pathId with
    | none => exact hs
    | some id =>
      simp only [serve]
      rw [handler_delete_store]
      exact Consistent_delete s hs id

theorem Consistent_foldl (reqs : List Request) (s : Store) (hs : Consistent s) :
    Consistent (reqs.foldl serve s) := by
  induction reqs generalizing s with
  | nil => exact hs
  | cons r rest ih => exact ih (serve s r) (Consistent_serve s hs r)

theorem Consistent_run (reqs : List Request) : Consistent (run reqs) :=
  Consistent_foldl reqs Store.empty Consistent_empty

end server

/-! ## Claims -/

namespace claims

open storage server

/-- C1: in every namespace reached from the empty one by create, update and delete requests
served without backend failure, for every stored document `A`, `CreateDocument` of a
document `B` with `B.ParentId = A.Id` returns the created document (carrying the id taken
from the serial counter) with a nil error, the new record is stored under that id, and the
stored child list of `A` is the old one followed by that id and contains it exactly once. -/
theorem create_links_parent_exactly_once (reqs : List Request) (A B : Document)
    (hA : (run reqs).records A.Id = some A) (hB : B.ParentId = A.Id) :
    (storage.CreateDocument noFaults (run reqs) B).2
        = .returns ({ B with Id := (run reqs).serial + 1 }, none) ∧
      (storage.CreateDocument noFaults (run reqs) B).1.records ((run reqs).serial + 1)
        = some { B with Id := (run reqs).serial + 1 } ∧
      ∃ A1, (storage.CreateDocument noFaults (run reqs) B).1.records A.Id = some A1 ∧
        A1.ChildrenIds = A.ChildrenIds ++ [(run reqs).serial + 1] ∧
        A1.ChildrenIds.count ((run reqs).serial + 1) = 1 := by
  have hs := Consistent_run reqs
  have hr := hs.range _ _ hA
  have hp : B.ParentId ≠ 0 := by rw [hB]; omega
  have hne : A.Id ≠ (run reqs).serial + 1 := by omega
  have h1 : (rxUpsertSerial none (run reqs) B).1.records B.ParentId = some A := by
    rw [rxUpsertSerial_records, hB, if_neg hne]; exact hA
  have hfresh : (run reqs).serial + 1 ∉ A.ChildrenIds := by
    intro hin
    have := hs.childRange _ _ _ hA hin
    omega
  rw [CreateDocument_linked (run reqs) B A hp h1]
  refine ⟨rfl, ?_, ?_⟩
  · rw [rxUpdate_records, if_neg (Ne.symm hne), rxUpsertSerial_records, if_pos rfl]
  · refine ⟨{ A with ChildrenIds := A.ChildrenIds ++ [(run reqs).serial + 1] }, ?_, rfl, ?_⟩
    · rw [rxUpdate_records, if_pos rfl, rxUpsertSerial_records, if_neg hne, hA]
      rfl
    · simp [List.count_append, List.count_eq_zero_of_not_mem hfresh]

/-- Witness of C1: parent created first, then a child of it. -/
theorem create_links_parent_exactly_once_witness :
    (storage.CreateDocument noFaults (run [.create (some ⟨0, "Root", 0, 0, []⟩)])
        ⟨0, "Kid", 0, 1, []⟩).2
        = .returns (⟨1 + 1, "Kid", 0, 1, []⟩, none) ∧
      ∃ A1, (storage.CreateDocument noFaults (run [.create (some ⟨0, "Root", 0, 0, []⟩)])
          ⟨0, "Kid", 0, 1, []⟩).1.records 1 = some A1 ∧
        A1.ChildrenIds.count (1 + 1) = 1 := by
  have h := create_links_parent_exactly_once [.create (some ⟨0, "Root", 0, 0, []⟩)]
    ⟨1, "Root", 0, 0, []⟩ ⟨0, "Kid", 0, 1, []⟩ (by decide) rfl
  obtain ⟨h1, _, A1, h2, _, h3⟩ := h
  exact ⟨h1, A1, h2, h3⟩

/-- C7: in every namespace reached from the empty one by create, update and delete requests
served by the handlers without backend failure, no stored document lists a child twice. -/
theorem reachable_children_nodup (reqs : List Request) (k : Int) (d : Document)
    (h : (run reqs).records k = some d) : d.ChildrenIds.Nodup :=
  (Consistent_run reqs).nodup k d h

/-- Witness of C7: a parent that received two children. -/
theorem reachable_children_nodup_witness : ([2, 3] : List Int).Nodup :=
  reachable_children_nodup
    [.create (some ⟨0, "Root", 0, 0, []⟩), .create (some ⟨0, "Kid", 0, 1, []⟩),
      .create (some ⟨0, "Kid2", 5, 1, [9, 9]⟩)]
    1 ⟨1, "Root", 0, 0, [2, 3]⟩ (by decide)

/-- C8: for every namespace and every id, `DeleteDocument` without backend failure returns
nil (whether or not a record has that id), removes the record with that id and leaves every
other record and the serial counter as they were; and when `K` is created under a stored
parent `P` in a reachable namespace and then deleted, the stored record of `P` is the same
before and after the delete and still lists the id of `K`. -/
theorem delete_removes_only_the_record :
    (∀ (s : Store) (id : Int),
      (storage.DeleteDocument noFaults s id).2 = none ∧
      (storage.DeleteDocument noFaults s id).1.records id = none ∧
      (∀ j, j ≠ id → (storage.DeleteDocument noFaults s id).1.records j = s.records j) ∧
      (storage.DeleteDocument noFaults s id).1.serial = s.serial) ∧
    (∀ (reqs : List Request) (P K : Document),
      (run reqs).records P.Id = some P → K.ParentId = P.Id →
      (storage.DeleteDocument noFaults (storage.CreateDocument noFaults (run reqs) K).1
          ((run reqs).serial + 1)).1.records P.Id
        = (storage.CreateDocument noFaults (run reqs) K).1.records P.Id ∧
      (storage.DeleteDocument noFaults (storage.CreateDocument noFaults (run reqs) K).1
          ((run reqs).serial + 1)).1.records P.Id
        = some { P with ChildrenIds := P.ChildrenIds ++ [(run reqs).serial + 1] }) := by
  have hdel : ∀ (s : Store) (id : Int),
      (storage.DeleteDocument noFaults s id).2 = none ∧
      (storage.DeleteDocument noFaults s id).1.records id = none ∧
      (∀ j, j ≠ id → (storage.DeleteDocument noFaults s id).1.records j = s.records j) ∧
      (storage.DeleteDocument noFaults s id).1.serial = s.serial := by
    intro s id
    refine ⟨rfl, ?_, ?_, rfl⟩
    · simp [storage.DeleteDocument, noFaults, rxDelete]
    · intro j hj
      simp [storage.DeleteDocument, noFaults, rxDelete, hj]
  refine ⟨hdel, ?_⟩
  intro reqs P K hP hK
  have hs := Consistent_run reqs
  have hr := hs.range _ _ hP
  have hne : P.Id ≠ (run reqs).serial + 1 := by omega
  have hp : K.ParentId ≠ 0 := by rw [hK]; omega
  have h1 : (rxUpsertSerial none (run reqs) K).1.records K.ParentId = some P := by
    rw [rxUpsertSerial_records, hK, if_neg hne]; exact hP
  have hkeep := (hdel (storage.CreateDocument noFaults (run reqs) K).1
    ((run reqs).serial + 1)).2.2.1 P.Id hne
  refine ⟨hkeep, ?_⟩
  rw [hkeep, CreateDocument_linked (run reqs) K P hp h1, rxUpdate_records, if_pos rfl,
    rxUpsertSerial_records, if_neg hne, hP]
  rfl

/-- Witness of C8: the scenario of the specification, parent `P`, child `K`, delete `K`. -/
theorem delete_removes_only_the_record_witness :
    (storage.DeleteDocument noFaults
        (storage.CreateDocument noFaults (run [.create (some ⟨0, "Root", 0, 0, []⟩)])
          ⟨0, "K", 0, 1, []⟩).1 (1 + 1)).1.records 1
      = some ⟨1, "Root", 0, 0, [1 + 1]⟩ :=
  (delete_removes_only_the_record.2 [.create (some ⟨0, "Root", 0, 0, []⟩)]
    ⟨1, "Root", 0, 0, []⟩ ⟨0, "K", 0, 1, []⟩ (by decide) rfl).2

/-- C9: a create request whose decoded title is the empty string is answered with status
400 and the message "Invalid title", whatever the backend would do, and the namespace
(records and serial counter) is the one before the request: the repository is not
called. -/
theorem create_empty_title_rejected (f : Faults) (s : Store) (request : Document)
    (h : request.Title = "") :
    handler.CreateDocument f s (some request)
      = (s, .returns ⟨400, .message "Invalid title"⟩) := by
  simp [handler.CreateDocument, handler.validate, h, handler.StatusBadRequest]

/-- Witness of C9: an empty title with a parent id, on the empty namespace. -/
theorem create_empty_title_rejected_witness :
    handler.CreateDocument noFaults Store.empty (some ⟨0, "", 3, 7, [4]⟩)
      = (Store.empty, .returns ⟨400, .message "Invalid title"⟩) :=
  create_empty_title_rejected noFaults Store.empty ⟨0, "", 3, 7, [4]⟩ rfl

/-- C2, evaluated where it fails: `B` (id 1) was created naming parent 2 before document 2
existed, so the later record `A` (id 2) has an empty child list although `B` names it as
parent. Re-parenting `B` to `C` (id 3) panics in the remove branch, before any write:
`C` does not list `B` and the stored parent of `B` is still `A`. -/
theorem update_reparent_panics_on_unlisted_child :
    (run [.create (some ⟨0, "B", 0, 2, []⟩), .create (some ⟨0, "A", 0, 0, []⟩),
          .create (some ⟨0, "C", 0, 0, []⟩)]).records 2 = some ⟨2, "A", 0, 0, []⟩ ∧
    (run [.create (some ⟨0, "B", 0, 2, []⟩), .create (some ⟨0, "A", 0, 0, []⟩),
          .create (some ⟨0, "C", 0, 0, []⟩)]).records 1 = some ⟨1, "B", 0, 2, []⟩ ∧
    (run [.create (some ⟨0, "B", 0, 2, []⟩), .create (some ⟨0, "A", 0, 0, []⟩),
          .create (some ⟨0, "C", 0, 0, []⟩)]).records 3 = some ⟨3, "C", 0, 0, []⟩ ∧
    (storage.UpdateDocument noFaults
        (run [.create (some ⟨0, "B", 0, 2, []⟩), .create (some ⟨0, "A", 0, 0, []⟩),
              .create (some ⟨0, "C", 0, 0, []⟩)]) ⟨1, "B", 0, 3, []⟩).2 = .panics ∧
    (storage.UpdateDocument noFaults
        (run [.create (some ⟨0, "B", 0, 2, []⟩), .create (some ⟨0, "A", 0, 0, []⟩),
              .create (some ⟨0, "C", 0, 0, []⟩)]) ⟨1, "B", 0, 3, []⟩).1.records 3
      = some ⟨3, "C", 0, 0, []⟩ ∧
    (storage.UpdateDocument noFaults
        (run [.create (some ⟨0, "B", 0, 2, []⟩), .create (some ⟨0, "A", 0, 0, []⟩),
              .create (some ⟨0, "C", 0, 0, []⟩)]) ⟨1, "B", 0, 3, []⟩).1.records 1
      = some ⟨1, "B", 0, 2, []⟩ := by
  decide

/-- C3, evaluated where it fails: on the empty namespace a create request with no id and
`parentId` 1 passes `validate` (the request id is 0), is answered with status 200, and the
record stored under the assigned id 1 has parent 1 and lists itself as child. -/
theorem create_stores_self_parent :
    handler.validate ⟨0, "a", 0, 1, []⟩ = "" ∧
    (handler.CreateDocument noFaults Store.empty (some ⟨0, "a", 0, 1, []⟩)).2
      = .returns ⟨200, .document ⟨1, "a", 0, 1, []⟩⟩ ∧
    (run [.create (some ⟨0, "a", 0, 1, []⟩)]).records 1 = some ⟨1, "a", 0, 1, [1]⟩ := by
  decide

/-- C4 as stated fails: on the empty namespace, creating a document whose parent id 5 names
no record does not return a nil error. -/
theorem create_missing_parent_counterexample :
    (⟨0, "a", 0, 5, []⟩ : Document).ParentId ≠ 0 ∧ Store.empty.records 5 = none ∧
    ¬ ∃ d, (storage.CreateDocument noFaults Store.empty ⟨0, "a", 0, 5, []⟩).2
        = .returns (d, none) := by
  refine ⟨by decide, rfl, ?_⟩
  have h : (storage.CreateDocument noFaults Store.empty ⟨0, "a", 0, 5, []⟩).2
      = .returns (Document.zero,
          some "storage.CreateDocument: storage.GetDocument: The parent document is missing") := by
    decide
  rintro ⟨d, hd⟩
  rw [h] at hd
  simp at hd

/-- C4 amended: when the parent id is non-zero, names no stored record and is not the id
about to be assigned, `CreateDocument` without backend failure returns the empty document
with the error "storage.CreateDocument: storage.GetDocument: The parent document is
missing", and every record stored under another id than the assigned one is unchanged. -/
theorem create_missing_parent_reports_error (s : Store) (doc : Document)
    (hp : doc.ParentId ≠ 0) (hn : s.records doc.ParentId = none)
    (hfresh : doc.ParentId ≠ s.serial + 1) :
    (storage.CreateDocument noFaults s doc).2
      = .returns (Document.zero,
          some "storage.CreateDocument: storage.GetDocument: The parent document is missing") ∧
    ∀ j, j ≠ s.serial + 1 →
      (storage.CreateDocument noFaults s doc).1.records j = s.records j := by
  have h1 : (rxUpsertSerial none s doc).1.records doc.ParentId = none := by
    rw [rxUpsertSerial_records, if_neg hfresh]; exact hn
  have hmsg : errorf "storage.CreateDocument"
      (errorf "storage.GetDocument" "The parent document is missing")
      = "storage.CreateDocument: storage.GetDocument: The parent document is missing" := by
    decide
  rw [CreateDocument_missing s doc hp h1, hmsg]
  refine ⟨rfl, ?_⟩
  intro j hj
  rw [rxUpsertSerial_records, if_neg hj]

/-- Witness of C4 amended: parent id 5 on the empty namespace. -/
theorem create_missing_parent_reports_error_witness :
    (storage.CreateDocument noFaults Store.empty ⟨0, "a", 0, 5, []⟩).2
      = .returns (Document.zero,
          some "storage.CreateDocument: storage.GetDocument: The parent document is missing") :=
  (create_missing_parent_reports_error Store.empty ⟨0, "a", 0, 5, []⟩ (by decide) rfl
    (by decide)).1

/-- C5 as stated fails: after creating `P`, creating `K` under it and deleting `P`, the
record `K` (id 2) has the dangling parent id 1; updating it does not return a nil error and
the new title is not applied. -/
theorem update_orphan_counterexample :
    (run [.create (some ⟨0, "P", 0, 0, []⟩), .create (some ⟨0, "K", 0, 1, []⟩),
          .delete (some 1)]).records 2 = some ⟨2, "K", 0, 1, []⟩ ∧
    (run [.create (some ⟨0, "P", 0, 0, []⟩), .create (some ⟨0, "K", 0, 1, []⟩),
          .delete (some 1)]).records 1 = none ∧
    (¬ ∃ d, (storage.UpdateDocument noFaults
        (run [.create (some ⟨0, "P", 0, 0, []⟩), .create (some ⟨0, "K", 0, 1, []⟩),
              .delete (some 1)]) ⟨2, "New", 7, 0, []⟩).2 = .returns (d, none)) ∧
    (storage.UpdateDocument noFaults
        (run [.create (some ⟨0, "P", 0, 0, []⟩), .create (some ⟨0, "K", 0, 1, []⟩),
              .delete (some 1)]) ⟨2, "New", 7, 0, []⟩).1.records 2
      = some ⟨2, "K", 0, 1, []⟩ := by
  refine ⟨by decide, by decide, ?_, by decide⟩
  have h : (storage.UpdateDocument noFaults
        (run [.create (some ⟨0, "P", 0, 0, []⟩), .create (some ⟨0, "K", 0, 1, []⟩),
              .delete (some 1)]) ⟨2, "New", 7, 0, []⟩).2
      = .returns (Document.zero,
          some "storage.UpdateDocument: storage.GetDocument: The parent document is missing") := by
    decide
  rintro ⟨d, hd⟩
  rw [h] at hd
  simp at hd

/-- C5 amended: for every stored document whose stored parent id is non-zero and names no
stored record, `UpdateDocument` without backend failure returns the empty document with the
error "storage.UpdateDocument: storage.GetDocument: The parent document is missing" and
leaves the namespace as it was: no link is touched and no field update is applied. -/
theorem update_orphan_reports_error (s : Store) (doc old : Document)
    (hold : s.records doc.Id = some old) (hp : old.ParentId ≠ 0)
    (hn : s.records old.ParentId = none) :
    storage.UpdateDocument noFaults s doc
      = (s, .returns (Document.zero,
          some "storage.UpdateDocument: storage.GetDocument: The parent document is missing")) := by
  rw [UpdateDocument_oldParent_error s doc old _ _ _ hold (getParentDocument_none s _ hp hn)]
  have : errorf "storage.UpdateDocument"
      (errorf "storage.GetDocument" "The parent document is missing")
      = "storage.UpdateDocument: storage.GetDocument: The parent document is missing" := by
    decide
  rw [this]

/-- Witness of C5 amended: the orphan left by deleting its parent. -/
theorem update_orphan_reports_error_witness :
    (storage.UpdateDocument noFaults
        (run [.create (some ⟨0, "P", 0, 0, []⟩), .create (some ⟨0, "K", 0, 1, []⟩),
              .delete (some 1)]) ⟨2, "New", 7, 0, []⟩).2
      = .returns (Document.zero,
          some "storage.UpdateDocument: storage.GetDocument: The parent document is missing") :=
  congrArg Prod.snd
    (update_orphan_reports_error
      (run [.create (some ⟨0, "P", 0, 0, []⟩), .create (some ⟨0, "K", 0, 1, []⟩),
            .delete (some 1)])
      ⟨2, "New", 7, 0, []⟩ ⟨2, "K", 0, 1, []⟩ (by decide) (by decide) (by decide))

/-- C6, evaluated where it fails: document 1 exists and the final field update reports the
backend error `e`; `UpdateDocument` returns the empty document with a nil error. -/
theorem update_final_write_failure_returns_nil (e : String) :
    (storage.UpdateDocument ⟨none, none, none, some e, none⟩
        (run [.create (some ⟨0, "a", 0, 0, []⟩)]) ⟨1, "b", 0, 0, []⟩).2
      = .returns (Document.zero, none) := by
  rfl

/-- C10: the capacity `len(childrenIds)-1` of the remove branch is rejected by `make`
exactly when the child list is empty; and evaluated where the claim fails: after a create
naming the not yet existing parent 2 (stored as id 1 although answered with 400) and the
create of document 2, document 2 is the stored parent of document 1 with an empty child
list, and the update request moving document 1 to the root runs the remove branch on it and
panics. -/
theorem update_remove_branch_negative_capacity :
    (∀ l : List Int, makeSlice ((l.length : Int) - 1) = none ↔ l = []) ∧
    (handler.CreateDocument noFaults Store.empty (some ⟨0, "B", 0, 2, []⟩)).2
      = .returns ⟨400, .message "Error when creating a document"⟩ ∧
    getParentDocument
        (run [.create (some ⟨0, "B", 0, 2, []⟩), .create (some ⟨0, "A", 0, 0, []⟩)]) 2
      = (⟨2, "A", 0, 0, []⟩, true, none) ∧
    (handler.UpdateDocument noFaults
        (run [.create (some ⟨0, "B", 0, 2, []⟩), .create (some ⟨0, "A", 0, 0, []⟩)])
        (some 1) (some ⟨0, "B", 0, 0, []⟩)).2 = .panics := by
  refine ⟨?_, by decide, by decide, by decide⟩
  intro l
  rw [makeSlice_length]
  by_cases hl : l = [] <;> simp [hl]

end claims
